import Mathlib

/-!
Shallow embedding of the AdaptDL-on-Ray elastic trial scheduler core:
the allocation/placement-group codec and job-info construction
(`adaptdl_job_mixin.py`), the trial lifecycle operations
(`adaptdl_trial.py`), and the increment test allocator
(`test_trial_sched.py`).

Python dicts are modelled as association lists in insertion order,
resource quantities as exact rationals, and Python assertions as
`Option` failure.
-/

namespace AdaptDL

abbrev NodeId := String
abbrev Key := String

/-- A placement bundle: a Python dict from resource key to quantity,
modelled as an association list in insertion order. -/
abbrev Bundle := List (Key × ℚ)

/-- The exact rational 0.01, the fractional quantity used for the
control-plane bundle and for node pinning. -/
def centi : ℚ := ⟨1, 100, by decide, by simp⟩

/-- The exact rational 0.001, the fractional quantity of the pause
placeholder bundle. -/
def milli : ℚ := ⟨1, 1000, by decide, by simp⟩

/-- Python `str.split(":")` on a character list. -/
def splitColon : List Char → List (List Char)
  | [] => [[]]
  | c :: rest =>
    if c = ':' then [] :: splitColon rest
    else
      match splitColon rest with
      | s :: ss => (c :: s) :: ss
      | [] => [[c]]

/-- Python `k.split(":")` for strings. -/
def pySplitColon (s : String) : List String := (splitColon s.data).map String.mk

/-- Python `s.startswith(p)`. -/
def pyStartsWith (s p : String) : Bool := p.data.isPrefixOf s.data

/-- Python `int(v)` on an exact rational: truncation toward zero. -/
def pyInt (q : ℚ) : ℤ := Int.tdiv q.num q.den

/-- Python `dict.get(k, d)` on an insertion-ordered dict. -/
def pyGet (b : Bundle) (k : Key) (d : ℚ) : ℚ :=
  match b.lookup k with
  | some v => v
  | none => d

/-- Distinct elements in first-occurrence order, skipping those already
seen: the key order of a Python dict built by insertion. -/
def firstOccsAux (seen : List NodeId) : List NodeId → List NodeId
  | [] => []
  | x :: xs =>
    if x ∈ seen then firstOccsAux seen xs
    else x :: firstOccsAux (x :: seen) xs

/-- Distinct elements of a list in first-occurrence order. -/
def firstOccs (l : List NodeId) : List NodeId := firstOccsAux [] l

/-- `collections.Counter(alloc).items()`: per-node occurrence counts in
first-occurrence order. -/
def counter (l : List NodeId) : List (NodeId × Nat) :=
  (firstOccs l).map (fun n => (n, l.count n))

/-- `_construct_bundle` inside `allocation_to_pgf`: the primary device
quantity, a fractional pin to the node's resource, and — when the
primary device is the GPU — an equal CPU reservation. -/
def construct_bundle (device : Key) (node : NodeId) (device_count : ℚ) : Bundle :=
  [(device, device_count), ("node:" ++ node, centi)] ++
    (if device == "GPU" then [("CPU", device_count)] else [])

/-- `AdaptDLJobMixin.allocation_to_pgf`: asserts the allocation is
non-empty (modelled as `none`), then emits the control-plane bundle
followed by one bundle per distinct node of the allocation. -/
def allocation_to_pgf (device : Key) (alloc : List NodeId) : Option (List Bundle) :=
  if alloc.length > 0 then
    some ([("CPU", centi)] ::
      (counter alloc).map (fun p => construct_bundle device p.1 (p.2 : ℚ)))
  else none

/-- `AdaptDLJobMixin.pgf_to_allocation`: collects the node-key suffixes
and device counts from the bundles past the first and expands each node
into that many repeated entries. -/
def pgf_to_allocation (device : Key) (pgf : List Bundle) : List NodeId :=
  let bundles := pgf.tail
  let node_keys := (bundles.map (fun b =>
    (b.filter (fun kv => pyStartsWith kv.1 "node")).map
      (fun kv => (pySplitColon kv.1).getD 1 ""))).flatten
  let num_devices := (bundles.map (fun b =>
    (b.filter (fun kv => kv.1 == device)).map (fun kv => pyInt kv.2))).flatten
  ((node_keys.zip num_devices).map
    (fun p => List.replicate p.2.toNat p.1)).flatten

/-- `AdaptDLJobMixin._pgf_to_num_replicas`: the total device count
over the bundles past the first. -/
def pgf_to_num_replicas (device : Key) (pgf : List Bundle) : ℤ :=
  (pgf.tail.map (fun b => pyInt (pyGet b device 0))).sum

/-! ## Trial records and lifecycle operations (`adaptdl_trial.py`) -/

inductive TrialStatus where
  | PENDING
  | RUNNING
  | PAUSED
  | TERMINATED
deriving DecidableEq

/-- The fields of an `AdaptDLTrial` record the lifecycle operations
read or write. `runner_live` models `self.runner is not None`. -/
structure TrialRecord where
  trial_id : String
  creation_timestamp : Nat
  rescale_count : Nat
  config : String
  experiment_tag : String
  restore_path : Option String
  placement_group_factory : List Bundle
  status : TrialStatus
  runner_live : Bool
  num_workers : ℤ
  local_dir : String
deriving DecidableEq

/-- The source handed to `_clone_from` / `create_from`: either an
existing `AdaptDLTrial` or a plain Tune `Trial` (the `isinstance`
branch). -/
inductive SrcTrial where
  | adaptdl (t : TrialRecord)
  | base (trial_id config experiment_tag : String) (runner_live : Bool)
      (restore_path : Option String)
deriving DecidableEq

def SrcTrial.trial_id : SrcTrial → String
  | .adaptdl t => t.trial_id
  | .base i _ _ _ _ => i

def SrcTrial.config : SrcTrial → String
  | .adaptdl t => t.config
  | .base _ c _ _ _ => c

def SrcTrial.experiment_tag : SrcTrial → String
  | .adaptdl t => t.experiment_tag
  | .base _ _ e _ _ => e

def SrcTrial.runner_live : SrcTrial → Bool
  | .adaptdl t => t.runner_live
  | .base _ _ _ r _ => r

def SrcTrial.restore_path : SrcTrial → Option String
  | .adaptdl t => t.restore_path
  | .base _ _ _ _ p => p

/-- `AdaptDLTrial._clone_from`: encode the target allocation, assert a
positive worker count, bump `rescale_count` when the source is an
`AdaptDLTrial`, and build the new PENDING record. `now` stands for
`datetime.now()` at construction time: although `_clone_from` computes
a local `creation_timestamp` (the source's for an `AdaptDLTrial`) and
passes it as a keyword argument, no constructor in the chain consumes
it — `AdaptDLTrial.__init__` pops only `rescale_count`, and
`AdaptDLJobMixin.__init__` unconditionally sets
`self.creation_timestamp = datetime.now()` — so the constructed
record's timestamp is the construction time, not the carried value. -/
def clone_from (device : Key) (now : Nat) (src : SrcTrial)
    (allocation : List NodeId) (restore_path : Option String) :
    Option TrialRecord :=
  match allocation_to_pgf device allocation with
  | none => none
  | some pgf =>
    let num_workers := pgf_to_num_replicas device pgf
    if 0 < num_workers then
      let rc := match src with
        | .adaptdl t => t.rescale_count + 1
        | .base _ _ _ _ _ => 0
      some { trial_id := src.trial_id, creation_timestamp := now,
             rescale_count := rc, config := src.config,
             experiment_tag := src.experiment_tag,
             restore_path := restore_path,
             placement_group_factory := pgf,
             status := .PENDING, runner_live := false,
             num_workers := num_workers, local_dir := "/tmp" }
    else none

/-- The trial registrations of a `TrialRunner`: `_trials` (a list) and
`_live_trials` (a set). -/
structure RunnerState where
  trials : List String
  live_trials : List String
deriving DecidableEq

/-- The successive registration states observable through
`AdaptDLTrial._requeue`: initial, after `stop_trial(old_trial)`
(registrations unchanged), after `_trials.pop(_trials.index(old))`,
after `_trials.append(self)`, and after `_live_trials.add(self)`. -/
def requeueTrace (newT old : String) (rs : RunnerState) : List RunnerState :=
  let s2 : RunnerState := { rs with trials := rs.trials.erase old }
  let s3 : RunnerState := { s2 with trials := s2.trials ++ [newT] }
  let s4 : RunnerState := { s3 with live_trials := s3.live_trials.insert newT }
  [rs, rs, s2, s3, s4]

/-- The final registration state after `AdaptDLTrial._requeue`. -/
def requeue (newT old : String) (rs : RunnerState) : RunnerState :=
  { trials := rs.trials.erase old ++ [newT],
    live_trials := rs.live_trials.insert newT }

/-- `AdaptDLTrial.create_from`: choose the checkpoint path to restore
from (`fresh_ckpt` stands for the path a live runner's captured state
is dumped to; a paused source reuses its `restore_path`), clone, and
requeue. The returned `Bool` records whether a fresh checkpoint was
captured; the two trailing Python assertions are modelled as guards. -/
def create_from (device : Key) (now : Nat) (fresh_ckpt : String)
    (src : SrcTrial) (rs : RunnerState) (new_allocation : List NodeId)
    (copy_state : Bool) : Option (TrialRecord × RunnerState × Bool) :=
  let cp : Option String × Bool :=
    if copy_state then
      if src.runner_live then (some fresh_ckpt, true)
      else (src.restore_path, false)
    else (none, false)
  match clone_from device now src new_allocation cp.1 with
  | none => none
  | some new_trial =>
    if new_trial.restore_path = cp.1 ∧ new_trial.status = .PENDING then
      some (new_trial, requeue new_trial.trial_id src.trial_id rs, cp.2)
    else none

/-- The placeholder placement group `pause` substitutes:
`PlacementGroupFactory([{"CPU": 0.001}])`. -/
def placeholder_pgf : List Bundle := [[("CPU", milli)]]

/-- The outcome of `AdaptDLTrial.pause`: the updated trial, the
captured checkpoint path, and whether the placement-group
reconciliation pass was triggered. -/
structure PauseResult where
  trial : TrialRecord
  checkpoint_path : String
  reconciled : Bool
deriving DecidableEq

/-- `AdaptDLTrial.pause`: asserts a live runner (modelled as `none`),
captures the state to a fresh checkpoint path retained as
`restore_path`, swaps the placement group for the minimal placeholder,
and triggers `reconcile_placement_groups`. -/
def pause (t : TrialRecord) (fresh_ckpt : String) : Option PauseResult :=
  if t.runner_live then
    some { trial := { t with restore_path := some fresh_ckpt,
                             placement_group_factory := placeholder_pgf },
           checkpoint_path := fresh_ckpt, reconciled := true }
  else none

/-! ## Job info and the speedup fallback (`adaptdl_job_mixin.py`) -/

/-- Opaque performance parameters of a metrics snapshot; the mixin only
passes them through. -/
structure PerfParams where
  token : Nat
deriving DecidableEq

/-- Opaque gradient parameters of a metrics snapshot. -/
structure GradParams where
  token : Nat
deriving DecidableEq

/-- The metrics returned by `_fetch_metrics` when present. -/
structure Metrics where
  perf_params : PerfParams
  grad_params : GradParams
deriving DecidableEq

/-- The arguments `job_info` builds a `GoodputFunction` from. -/
structure GoodputFn where
  perf_params : PerfParams
  grad_params : GradParams
  init_batch_size : Nat
deriving DecidableEq

/-- The speedup function placed in `JobInfo`: either the identity
fallback `lambda n, r: r` or the model-derived `SpeedupFunction` built
from a `GoodputFunction`. -/
inductive SpeedupFn where
  | identity
  | model (goodput : GoodputFn) (max_batch_size : Nat)
      (atomic_bsz_lo atomic_bsz_hi : Nat)
deriving DecidableEq

/-- The scheduler-facing `JobInfo` record. -/
structure JobInfo where
  resources : Bundle
  speedup_fn : SpeedupFn
  creation_timestamp : Nat
  min_replicas : Nat
  max_replicas : Nat
deriving DecidableEq

/-- `AdaptDLJobMixin.job_info`: build the goodput-derived speedup
function from the fetched metrics, or fall back to the identity
function when metrics are absent. Resources and replica bounds come
from the external `config` module. -/
def job_info (job_resources : Bundle) (min_reps max_reps : Nat)
    (metrics : Option Metrics) (creation_timestamp : Nat) : JobInfo :=
  let speedup_fn :=
    match metrics with
    | some m => SpeedupFn.model ⟨m.perf_params, m.grad_params, 128⟩ 1280 64 256
    | none => SpeedupFn.identity
  { resources := job_resources, speedup_fn := speedup_fn,
    creation_timestamp := creation_timestamp,
    min_replicas := min_reps, max_replicas := max_reps }

/-! ## The increment test allocator (`test_trial_sched.py`) -/

/-- The mutable counters of `IncrAllocator`. -/
structure IncrState where
  avail_cpus : Nat
  cur_cpus : Nat
deriving DecidableEq

/-- `IncrAllocator.__init__` on a cluster whose single node has
`cluster_cpus` CPUs: one CPU is reserved for the Trainable, and the
allocation starts at one. -/
def IncrInit (cluster_cpus : Nat) : IncrState :=
  { avail_cpus := cluster_cpus - 1, cur_cpus := 1 }

/-- `IncrAllocator.allocate` for the single job: once the job has
caught up with `_cur_cpus`, bump it (capped at `_avail_cpus`), and
return the default allocation of the new size on the first node. -/
def IncrAllocate (node : NodeId) (s : IncrState) (job_num_replicas : Nat) :
    IncrState × List NodeId :=
  let s' := if job_num_replicas = s.cur_cpus
            then { s with cur_cpus := min (s.cur_cpus + 1) s.avail_cpus }
            else s
  (s', List.replicate s'.cur_cpus node)

/-- Modelled from the spec: the reconciliation loop of the increment
scenario (the `AdaptDLScheduler` driving `IncrAllocator` is not among
the staged sources). The job starts at one replica, and after each
cycle it runs with the replica count the allocator just returned.
Yields (allocator state, job replica count) after `k` cycles. -/
def incrCycles (cluster_cpus : Nat) (node : NodeId) : Nat → IncrState × Nat
  | 0 => (IncrInit cluster_cpus, 1)
  | k + 1 =>
    let p := incrCycles cluster_cpus node k
    let q := IncrAllocate node p.1 p.2
    (q.1, q.2.length)


/-- Membership in `firstOccsAux`: an element of the remainder not yet seen. -/
theorem mem_firstOccsAux (m : NodeId) (seen : List NodeId) (l : List NodeId) :
    m ∈ firstOccsAux seen l ↔ m ∈ l ∧ m ∉ seen := by
  induction l generalizing seen with
  | nil => simp [firstOccsAux]
  | cons x xs ih =>
    by_cases hx : x ∈ seen
    · rw [firstOccsAux, if_pos hx, ih]
      constructor
      · rintro ⟨h1, h2⟩
        exact ⟨List.mem_cons_of_mem _ h1, h2⟩
      · rintro ⟨h1, h2⟩
        rcases List.mem_cons.mp h1 with h | h
        · exact absurd hx (h ▸ h2)
        · exact ⟨h, h2⟩
    · rw [firstOccsAux, if_neg hx]
      rw [List.mem_cons, ih]
      constructor
      · rintro (h | ⟨h1, h2⟩)
        · subst h; exact ⟨List.mem_cons_self _ _, hx⟩
        · refine ⟨List.mem_cons_of_mem _ h1, fun hm => h2 (List.mem_cons_of_mem _ hm)⟩
      · rintro ⟨h1, h2⟩
        rcases List.mem_cons.mp h1 with h | h
        · exact Or.inl h
        · by_cases hmx : m = x
          · exact Or.inl hmx
          · exact Or.inr ⟨h, fun hm => by
              rcases List.mem_cons.mp hm with h3 | h3
              · exact hmx h3
              · exact h2 h3⟩

/-- `firstOccsAux` never repeats an element. -/
theorem nodup_firstOccsAux (seen : List NodeId) (l : List NodeId) :
    (firstOccsAux seen l).Nodup := by
  induction l generalizing seen with
  | nil => simp [firstOccsAux]
  | cons x xs ih =>
    by_cases hx : x ∈ seen
    · rw [firstOccsAux, if_pos hx]; exact ih seen
    · rw [firstOccsAux, if_neg hx]
      refine List.nodup_cons.mpr ⟨fun hmem => ?_, ih (x :: seen)⟩
      exact ((mem_firstOccsAux x (x :: seen) xs).mp hmem).2 (List.mem_cons_self _ _)

/-- `firstOccs` has exactly the elements of its input. -/
theorem mem_firstOccs (m : NodeId) (l : List NodeId) :
    m ∈ firstOccs l ↔ m ∈ l := by
  rw [firstOccs, mem_firstOccsAux]; simp

/-- `firstOccs` is duplicate-free. -/
theorem nodup_firstOccs (l : List NodeId) : (firstOccs l).Nodup :=
  nodup_firstOccsAux [] l

/-- `firstOccs` spans the same finite set as its input. -/
theorem toFinset_firstOccs (l : List NodeId) :
    (firstOccs l).toFinset = l.toFinset := by
  ext m
  simp [List.mem_toFinset, mem_firstOccs]

/-- Summing each distinct node's multiplicity recovers the length. -/
theorem sum_counts (l : List NodeId) :
    ((firstOccs l).map (fun n => l.count n)).sum = l.length := by
  rw [← List.sum_toFinset _ (nodup_firstOccs l), toFinset_firstOccs]
  exact List.sum_toFinset_count_eq_length l

/-- Counting in the per-node expansion recovers the original count. -/
theorem count_expand (l : List NodeId) (m : NodeId) :
    (((firstOccs l).map (fun n => List.replicate (l.count n) n)).flatten).count m
      = l.count m := by
  rw [List.count_flatten, List.map_map]
  have h1 : (List.count m ∘ fun n => List.replicate (l.count n) n)
      = fun n => if n = m then l.count n else 0 := by
    funext n
    simp [Function.comp, List.count_replicate]
  rw [h1]
  rw [← List.sum_toFinset _ (nodup_firstOccs l), toFinset_firstOccs]
  rw [Finset.sum_ite_eq' l.toFinset m (fun n => l.count n)]
  by_cases hm : m ∈ l
  · rw [if_pos (List.mem_toFinset.mpr hm)]
  · rw [if_neg (fun h => hm (List.mem_toFinset.mp h))]
    exact (List.count_eq_zero.mpr hm).symm


/-- Splitting a `node:`-prefixed character list peels the prefix. -/
theorem splitColon_node (cs : List Char) :
    splitColon ('n' :: 'o' :: 'd' :: 'e' :: ':' :: cs) =
      ['n', 'o', 'd', 'e'] :: splitColon cs := rfl

/-- Splitting a colon-free character list is the identity. -/
theorem splitColon_noColon (cs : List Char) (h : ':' ∉ cs) :
    splitColon cs = [cs] := by
  induction cs with
  | nil => rfl
  | cons c rest ih =>
    have hc : ¬ (c = ':') := fun e => h (e ▸ List.mem_cons_self _ _)
    rw [splitColon, if_neg hc, ih (fun m => h (List.mem_cons_of_mem _ m))]

/-- `"node:" ++ n` splits into `["node", n]` when `n` is colon-free. -/
theorem pySplitColon_node (n : NodeId) (h : ':' ∉ n.data) :
    pySplitColon ("node:" ++ n) = ["node", n] := by
  unfold pySplitColon
  have hd : ("node:" ++ n).data = 'n' :: 'o' :: 'd' :: 'e' :: ':' :: n.data := rfl
  rw [hd, splitColon_node, splitColon_noColon n.data h]
  rfl

/-- Every `node:`-prefixed key starts with `node`. -/
theorem pyStartsWith_node_key (n : NodeId) :
    pyStartsWith ("node:" ++ n) "node" = true := rfl

/-- The key `CPU` does not start with `node`. -/
theorem pyStartsWith_CPU : pyStartsWith "CPU" "node" = false := rfl

/-- The key `GPU` does not start with `node`. -/
theorem pyStartsWith_GPU : pyStartsWith "GPU" "node" = false := rfl

/-- A node-pin key is never the `CPU` key. -/
theorem node_key_ne_CPU (n : NodeId) : ("node:" ++ n) ≠ "CPU" := by
  intro h
  have h2 : 'n' :: 'o' :: 'd' :: 'e' :: ':' :: n.data = ['C', 'P', 'U'] :=
    congrArg String.data h
  injection h2 with h3 _
  exact absurd h3 (by decide)

/-- A node-pin key is never the `GPU` key. -/
theorem node_key_ne_GPU (n : NodeId) : ("node:" ++ n) ≠ "GPU" := by
  intro h
  have h2 : 'n' :: 'o' :: 'd' :: 'e' :: ':' :: n.data = ['G', 'P', 'U'] :=
    congrArg String.data h
  injection h2 with h3 _
  exact absurd h3 (by decide)

/-- Python `int()` of a natural count is that count. -/
theorem pyInt_natCast (c : ℕ) : pyInt ((c : ℕ) : ℚ) = (c : ℤ) := by
  simp [pyInt, Rat.num_natCast, Rat.den_natCast, Int.tdiv_one]


/-- The node-key extraction of a constructed bundle yields exactly its node's split key. -/
theorem filter_node_keys (d : Key) (hd : d = "CPU" ∨ d = "GPU")
    (n : NodeId) (c : ℚ) :
    ((construct_bundle d n c).filter (fun kv => pyStartsWith kv.1 "node")).map
        (fun kv => (pySplitColon kv.1).getD 1 "") =
      [(pySplitColon ("node:" ++ n)).getD 1 ""] := by
  rcases hd with h | h <;> subst h <;>
    simp [construct_bundle, List.filter, pyStartsWith_node_key,
      pyStartsWith_CPU, pyStartsWith_GPU]

/-- The device-count extraction of a constructed bundle yields exactly its count. -/
theorem filter_num_devices (d : Key) (hd : d = "CPU" ∨ d = "GPU")
    (n : NodeId) (c : ℚ) :
    ((construct_bundle d n c).filter (fun kv => kv.1 == d)).map
        (fun kv => pyInt kv.2) = [pyInt c] := by
  have hC : (("node:" ++ n : String) == "CPU") = false :=
    beq_eq_false_iff_ne.mpr (node_key_ne_CPU n)
  have hG : (("node:" ++ n : String) == "GPU") = false :=
    beq_eq_false_iff_ne.mpr (node_key_ne_GPU n)
  rcases hd with h | h <;> subst h <;>
    simp [construct_bundle, List.filter, hC, hG]

/-- Looking up the device in a constructed bundle yields its count. -/
theorem lookup_construct (d : Key) (n : NodeId) (c : ℚ) :
    pyGet (construct_bundle d n c) d 0 = c := by
  simp [pyGet, construct_bundle, List.lookup]

/-- The explicit form of a successful `allocation_to_pgf`. -/
theorem encode_eq (d : Key) (l : List NodeId) (hl : l ≠ []) :
    allocation_to_pgf d l =
      some ([("CPU", centi)] ::
        (counter l).map (fun p => construct_bundle d p.1 (p.2 : ℚ))) := by
  rw [allocation_to_pgf, if_pos]
  exact Nat.pos_of_ne_zero (fun h => hl (List.length_eq_zero.mp h))

/-- The encoded replica count is the allocation's length. -/
theorem num_replicas_encode (d : Key) (l : List NodeId) (hl : l ≠ []) :
    ∀ pgf, allocation_to_pgf d l = some pgf →
      pgf_to_num_replicas d pgf = (l.length : ℤ) := by
  intro pgf he
  rw [encode_eq d l hl] at he
  injection he with he
  subst he
  rw [pgf_to_num_replicas]
  have ht : (([("CPU", centi)] ::
      (counter l).map (fun p => construct_bundle d p.1 (p.2 : ℚ))).tail)
      = (counter l).map (fun p => construct_bundle d p.1 (p.2 : ℚ)) := rfl
  rw [ht, List.map_map]
  have h1 : ((fun b => pyInt (pyGet b d 0)) ∘
      fun p : NodeId × ℕ => construct_bundle d p.1 (p.2 : ℚ))
      = fun p : NodeId × ℕ => (p.2 : ℤ) := by
    funext p
    simp [Function.comp, lookup_construct, pyInt_natCast]
  rw [h1, counter, List.map_map]
  have h2 : ((fun p : NodeId × ℕ => (p.2 : ℤ)) ∘ fun n => (n, l.count n))
      = fun n => ((l.count n : ℕ) : ℤ) := rfl
  rw [h2]
  have h3 : ((firstOccs l).map (fun n => ((l.count n : ℕ) : ℤ))).sum
      = (((firstOccs l).map (fun n => l.count n)).sum : ℤ) := by
    rw [Nat.cast_list_sum, List.map_map]
    rfl
  rw [h3, sum_counts]


/-- Flattening singletons is mapping. -/
theorem flatten_map_singleton {α β : Type} (g : α → β) (l : List α) :
    (l.map (fun x => [g x])).flatten = l.map g := by
  induction l with
  | nil => rfl
  | cons x xs ih => simp [ih]

/-- Node-key extraction over all constructed bundles. -/
theorem map_filter_nodes (d : Key) (hd : d = "CPU" ∨ d = "GPU")
    (ps : List (NodeId × ℕ)) (hps : ∀ p ∈ ps, ':' ∉ p.1.data) :
    (ps.map (fun p => construct_bundle d p.1 (p.2 : ℚ))).map
        (fun b => (b.filter (fun kv => pyStartsWith kv.1 "node")).map
          (fun kv => (pySplitColon kv.1).getD 1 "")) =
      ps.map (fun p => [p.1]) := by
  rw [List.map_map]
  apply List.map_congr_left
  intro p hp
  show ((construct_bundle d p.1 (p.2 : ℚ)).filter _).map _ = [p.1]
  rw [filter_node_keys d hd p.1 (p.2 : ℚ), pySplitColon_node p.1 (hps p hp)]
  rfl

/-- Device-count extraction over all constructed bundles. -/
theorem map_filter_devices (d : Key) (hd : d = "CPU" ∨ d = "GPU")
    (ps : List (NodeId × ℕ)) :
    (ps.map (fun p => construct_bundle d p.1 (p.2 : ℚ))).map
        (fun b => (b.filter (fun kv => kv.1 == d)).map (fun kv => pyInt kv.2)) =
      ps.map (fun p => [(p.2 : ℤ)]) := by
  rw [List.map_map]
  apply List.map_congr_left
  intro p _
  show ((construct_bundle d p.1 (p.2 : ℚ)).filter _).map _ = [(p.2 : ℤ)]
  rw [filter_num_devices d hd p.1 (p.2 : ℚ), pyInt_natCast]

/-- Decoding an encoded allocation gives every distinct node repeated by its multiplicity, in first-occurrence order (node identifiers colon-free). -/
theorem decode_encode (d : Key) (hd : d = "CPU" ∨ d = "GPU")
    (l : List NodeId) (hl : l ≠ []) (hcf : ∀ n ∈ l, ':' ∉ n.data)
    (pgf : List Bundle) (he : allocation_to_pgf d l = some pgf) :
    pgf_to_allocation d pgf =
      ((firstOccs l).map (fun n => List.replicate (l.count n) n)).flatten := by
  rw [encode_eq d l hl] at he
  injection he with he
  subst he
  have hps : ∀ p ∈ counter l, ':' ∉ p.1.data := by
    intro p hp
    rcases List.mem_map.mp hp with ⟨n, hn, rfl⟩
    exact hcf n ((mem_firstOccs n l).mp hn)
  unfold pgf_to_allocation
  simp only [List.tail_cons]
  rw [map_filter_nodes d hd (counter l) hps, map_filter_devices d hd (counter l),
    flatten_map_singleton, flatten_map_singleton, List.zip_map', List.map_map]
  rw [counter, List.map_map]
  rfl


/-- A clone onto a non-empty allocation succeeds, is PENDING, keeps the requested restore path and trial id, sizes its workers by the allocation, stamps the construction time, and — from an AdaptDL source — bumps the rescale count. -/
theorem clone_from_some (d : Key) (now : Nat) (src : SrcTrial)
    (alloc : List NodeId) (rp : Option String) (hl : alloc ≠ []) :
    ∃ nt, clone_from d now src alloc rp = some nt ∧
      nt.restore_path = rp ∧ nt.status = .PENDING ∧
      nt.trial_id = src.trial_id ∧ nt.num_workers = (alloc.length : ℤ) ∧
      nt.creation_timestamp = now ∧
      (∀ t, src = .adaptdl t →
        nt.rescale_count = t.rescale_count + 1) := by
  have he := encode_eq d alloc hl
  have hnum := num_replicas_encode d alloc hl _ he
  have hpos : 0 < pgf_to_num_replicas d ([("CPU", centi)] ::
      (counter alloc).map (fun p => construct_bundle d p.1 (p.2 : ℚ))) := by
    rw [hnum]
    exact_mod_cast List.length_pos.mpr hl
  simp only [clone_from, he]
  rw [if_pos hpos]
  exact ⟨_, rfl, rfl, rfl, rfl, hnum, rfl,
    fun t hsrc => by subst hsrc; rfl⟩

/-- Closed form of the increment scenario on a 5-CPU cluster: after `k` cycles the allocator state and the job's replica count are both `min (k+1) 4`. -/
theorem incr_inv (node : NodeId) (k : Nat) :
    incrCycles 5 node k =
      ({ avail_cpus := 4, cur_cpus := min (k + 1) 4 }, min (k + 1) 4) := by
  induction k with
  | zero => rfl
  | succ k ih =>
    simp only [incrCycles, ih, IncrAllocate, if_pos rfl, List.length_replicate]
    have hm : min (min (k + 1) 4 + 1) 4 = min (k + 1 + 1) 4 := by omega
    simp [hm]


/-- C1 (counterexample): the decode-encode round trip is not multiset-equal
to the input for every non-empty allocation: for the allocation `["a:b"]`
(a node identifier containing a colon) the round trip yields `["a"]`, so
the occurrence count of `"a:b"` dropped from 1 to 0 — the decoder's
`k.split(":")[1]` truncates the identifier at its first colon. -/
theorem C1_roundtrip_counterexample :
    allocation_to_pgf "CPU" ["a:b"] =
      some [[("CPU", centi)], [("CPU", ((1 : ℕ) : ℚ)), ("node:a:b", centi)]] ∧
    pgf_to_allocation "CPU"
      [[("CPU", centi)], [("CPU", ((1 : ℕ) : ℚ)), ("node:a:b", centi)]] = ["a"] ∧
    ¬ ((["a"] : List NodeId).count "a:b" = (["a:b"] : List NodeId).count "a:b") :=
  ⟨by decide, by decide, by decide⟩

/-- C1 (amended): for every non-empty allocation whose node identifiers
contain no colon, decoding the encoding yields a list multiset-equal to the
input: every node identifier occurs in
`pgf_to_allocation (allocation_to_pgf a)` exactly as often as in `a`. -/
theorem C1_roundtrip_amended (d : Key) (l : List NodeId) (pgf : List Bundle)
    (hd : d = "CPU" ∨ d = "GPU") (hl : l ≠ [])
    (hcf : ∀ n ∈ l, ':' ∉ n.data)
    (he : allocation_to_pgf d l = some pgf) (m : NodeId) :
    (pgf_to_allocation d pgf).count m = l.count m := by
  rw [decode_encode d hd l hl hcf pgf he]
  exact count_expand l m

/-- C1 (witness): the round-trip count equality instantiated at the
allocation `["x", "y", "x"]` and node `"x"` under the amended theorem's
hypotheses, each discharged by evaluation. -/
theorem C1_roundtrip_witness :
    (("CPU" : Key) = "CPU" ∨ ("CPU" : Key) = "GPU") ∧
    (["x", "y", "x"] : List NodeId) ≠ [] ∧
    (∀ n ∈ (["x", "y", "x"] : List NodeId), ':' ∉ n.data) ∧
    allocation_to_pgf "CPU" ["x", "y", "x"] =
      some [[("CPU", centi)],
            [("CPU", ((2 : ℕ) : ℚ)), ("node:x", centi)],
            [("CPU", ((1 : ℕ) : ℚ)), ("node:y", centi)]] ∧
    (pgf_to_allocation "CPU"
      [[("CPU", centi)],
       [("CPU", ((2 : ℕ) : ℚ)), ("node:x", centi)],
       [("CPU", ((1 : ℕ) : ℚ)), ("node:y", centi)]]).count "x" =
      (["x", "y", "x"] : List NodeId).count "x" :=
  ⟨Or.inl rfl, by decide, by decide, by decide,
    C1_roundtrip_amended "CPU" ["x", "y", "x"] _ (Or.inl rfl) (by decide)
      (by decide) (by decide) "x"⟩


/-- C2 (counterexample): the claim's "never neither registered" half fails:
during `_requeue` of `"t1"` replacing `"t0"` from the runner state whose
trial list is `["t0"]`, some observable state of the trace has neither
trial in the runner's trial list (the state between `_trials.pop` and
`_trials.append`). -/
theorem C2_requeue_counterexample :
    ¬ (∀ s ∈ requeueTrace "t1" "t0" ⟨["t0"], ["t0"]⟩,
        "t0" ∈ s.trials ∨ "t1" ∈ s.trials) := by decide

/-- C2 (amended): replacing an old trial by its clone in `_requeue` never
makes both trials registered at once, starts with exactly the old trial
registered and ends (its final state being `requeue`) with the new trial
registered and the old one not; but one intermediate state — after the pop,
before the append — holds neither, so the replacement is not atomic in the
claimed "never neither" sense. -/
theorem C2_requeue_amended (newT old : String) (rs : RunnerState)
    (h1 : rs.trials.count old = 1) (h2 : newT ∉ rs.trials)
    (h3 : newT ≠ old) :
    (∀ s ∈ requeueTrace newT old rs, ¬ (old ∈ s.trials ∧ newT ∈ s.trials)) ∧
    old ∈ rs.trials ∧
    (requeueTrace newT old rs).getLast? = some (requeue newT old rs) ∧
    old ∉ (requeue newT old rs).trials ∧
    newT ∈ (requeue newT old rs).trials := by
  have hold_not : old ∉ rs.trials.erase old := by
    have hz : (rs.trials.erase old).count old = 0 := by
      rw [List.count_erase_self, h1]
    exact List.count_eq_zero.mp hz
  have hmem : old ∈ rs.trials := by
    have : 0 < rs.trials.count old := by rw [h1]; exact Nat.zero_lt_one
    exact List.count_pos_iff.mp this
  refine ⟨?_, hmem, rfl, ?_, ?_⟩
  · intro s hs
    simp only [requeueTrace, List.mem_cons, List.not_mem_nil, or_false] at hs
    rcases hs with rfl | rfl | rfl | rfl | rfl
    · exact fun h => h2 h.2
    · exact fun h => h2 h.2
    · exact fun h => h2 (List.mem_of_mem_erase h.2)
    · rintro ⟨hold, -⟩
      rcases List.mem_append.mp hold with h | h
      · exact hold_not h
      · exact h3 (List.mem_singleton.mp h).symm
    · rintro ⟨hold, -⟩
      rcases List.mem_append.mp hold with h | h
      · exact hold_not h
      · exact h3 (List.mem_singleton.mp h).symm
  · intro h
    rcases List.mem_append.mp h with h | h
    · exact hold_not h
    · exact h3 (List.mem_singleton.mp h).symm
  · exact List.mem_append.mpr (Or.inr (List.mem_singleton.mpr rfl))

/-- C2 (witness): the amended requeue property instantiated at old trial
`"t0"`, new trial `"t1"` and the runner state registering only `"t0"`,
the hypotheses discharged by evaluation. -/
theorem C2_requeue_witness :
    ((⟨["t0"], ["t0"]⟩ : RunnerState).trials.count "t0" = 1) ∧
    ("t1" ∉ (⟨["t0"], ["t0"]⟩ : RunnerState).trials) ∧
    ("t1" ≠ "t0") ∧
    ((∀ s ∈ requeueTrace "t1" "t0" ⟨["t0"], ["t0"]⟩,
        ¬ ("t0" ∈ s.trials ∧ "t1" ∈ s.trials)) ∧
      "t0" ∈ (⟨["t0"], ["t0"]⟩ : RunnerState).trials ∧
      (requeueTrace "t1" "t0" ⟨["t0"], ["t0"]⟩).getLast? =
        some (requeue "t1" "t0" ⟨["t0"], ["t0"]⟩) ∧
      "t0" ∉ (requeue "t1" "t0" ⟨["t0"], ["t0"]⟩).trials ∧
      "t1" ∈ (requeue "t1" "t0" ⟨["t0"], ["t0"]⟩).trials) :=
  ⟨by decide, by decide, by decide,
    C2_requeue_amended "t1" "t0" ⟨["t0"], ["t0"]⟩ (by decide) (by decide)
      (by decide)⟩

/-- C3 (counterexample): under the increment policy on the test's 5-CPU
cluster the job's replica count after 4 and after 5 cycles is 4, not the
claimed 5: `IncrAllocator.__init__` reserves one of the 5 CPUs for the
Trainable, so the ceiling `_avail_cpus` is 4. -/
theorem C3_incr_counterexample :
    (incrCycles 5 "n0" 4).2 = 4 ∧ ¬ ((incrCycles 5 "n0" 4).2 = 5) ∧
    (incrCycles 5 "n0" 5).2 = 4 := by decide

/-- C3 (amended): under the increment policy on the test's 5-CPU cluster
(one CPU reserved for the Trainable), successive allocate cycles grow the
job's replica count by exactly one unit per cycle through 1, 2, 3, 4 and
then stay at the ceiling of 4: after `k` cycles it is `min (k+1) 4`. -/
theorem C3_incr_amended (node : NodeId) (k : Nat) :
    (incrCycles 5 node k).2 = min (k + 1) 4 := by
  rw [incr_inv]


/-- C4 (code bug): cloning an AdaptDL source whose `creation_timestamp`
is 7, with the clone constructed at time 99, yields a record whose
`rescale_count` is bumped to 4 and whose `trial_id` carries over, but
whose `creation_timestamp` is 99 — the construction time — and not the
source's 7. The `creation_timestamp=` keyword argument `_clone_from`
passes is never consumed: `AdaptDLTrial.__init__` pops only
`rescale_count`, and `AdaptDLJobMixin.__init__` unconditionally sets
`self.creation_timestamp = datetime.now()`, contradicting the code's
own `Carry over the creation_timestamp` comment and the spec's
carry-over requirement. -/
theorem C4_clone_timestamp_bug :
    (clone_from "CPU" 99
        (.adaptdl ⟨"t0", 7, 3, "c", "e", none, [], .RUNNING, true, 1, "/tmp"⟩)
        ["x"] none).map
      (fun nt => (nt.rescale_count, nt.trial_id, nt.creation_timestamp)) =
      some (4, "t0", 99) ∧
    ¬ ((99 : Nat) = 7) := by
  exact ⟨by decide, by decide⟩

/-- C5: pausing a trial with a live runner captures a checkpoint retained
as the trial's restore path, replaces its placement group with the single
fractional-CPU placeholder bundle `[{"CPU": 0.001}]` — bound to no node —
and triggers the host runtime's placement-group reconciliation; the
checkpoint reference is retained after the pause. -/
theorem C5_pause_spec (t : TrialRecord) (fresh_ckpt : String)
    (h : t.runner_live = true) :
    ∃ r, pause t fresh_ckpt = some r ∧
      r.trial.restore_path = some fresh_ckpt ∧
      r.checkpoint_path = fresh_ckpt ∧
      r.trial.placement_group_factory = [[("CPU", milli)]] ∧
      (0 : ℚ) < milli ∧ milli < 1 ∧
      (∀ b ∈ r.trial.placement_group_factory, ∀ kv ∈ b,
        pyStartsWith kv.1 "node" = false) ∧
      r.reconciled = true := by
  have hp : pause t fresh_ckpt =
      some (PauseResult.mk
        { t with restore_path := some fresh_ckpt,
                 placement_group_factory := placeholder_pgf }
        fresh_ckpt true) := by
    simp [pause, h]
  refine ⟨_, hp, rfl, rfl, rfl, by decide, by decide, ?_, rfl⟩
  intro b hb kv hkv
  have hb2 : b ∈ [[(("CPU" : Key), milli)]] := hb
  obtain rfl := List.mem_singleton.mp hb2
  have hkv2 : kv ∈ [(("CPU" : Key), milli)] := hkv
  obtain rfl := List.mem_singleton.mp hkv2
  rfl

/-- C5 (witness): the pause property instantiated at a concrete running
trial and checkpoint path `"ck"`, the hypothesis discharged by
evaluation. -/
theorem C5_pause_witness :
    ((⟨"t0", 0, 0, "c", "e", none, [[("CPU", centi)]], .RUNNING, true, 1,
        "/tmp"⟩ : TrialRecord).runner_live = true) ∧
    (∃ r, pause
        ⟨"t0", 0, 0, "c", "e", none, [[("CPU", centi)]], .RUNNING, true, 1,
          "/tmp"⟩ "ck" = some r ∧
      r.trial.restore_path = some "ck" ∧
      r.checkpoint_path = "ck" ∧
      r.trial.placement_group_factory = [[("CPU", milli)]] ∧
      (0 : ℚ) < milli ∧ milli < 1 ∧
      (∀ b ∈ r.trial.placement_group_factory, ∀ kv ∈ b,
        pyStartsWith kv.1 "node" = false) ∧
      r.reconciled = true) :=
  ⟨rfl,
    C5_pause_spec
      ⟨"t0", 0, 0, "c", "e", none, [[("CPU", centi)]], .RUNNING, true, 1,
        "/tmp"⟩ "ck" rfl⟩


/-- C6: `create_from` with `copy_state`: when the source has no live
process group (it was paused) the new trial's restore path is exactly the
source's existing `restore_path` and no fresh checkpoint is captured
(captured flag `false`); when the source has a live process group a fresh
checkpoint is captured (flag `true`) and becomes the new restore path. -/
theorem C6_create_from_checkpoint_choice (d : Key) (now : Nat)
    (fresh_ckpt : String) (src : SrcTrial) (rs : RunnerState)
    (alloc : List NodeId) (hl : alloc ≠ []) :
    (src.runner_live = false →
      ∃ nt rs2, create_from d now fresh_ckpt src rs alloc true =
          some (nt, rs2, false) ∧
        nt.restore_path = src.restore_path) ∧
    (src.runner_live = true →
      ∃ nt rs2, create_from d now fresh_ckpt src rs alloc true =
          some (nt, rs2, true) ∧
        nt.restore_path = some fresh_ckpt) := by
  constructor
  · intro hlive
    obtain ⟨nt, heq, hrp, hst, -, -, -, -⟩ :=
      clone_from_some d now src alloc src.restore_path hl
    refine ⟨nt, requeue nt.trial_id src.trial_id rs, ?_, hrp⟩
    simp only [create_from, hlive, if_true, if_false, Bool.false_eq_true,
      heq]
    rw [if_pos ⟨hrp, hst⟩]
  · intro hlive
    obtain ⟨nt, heq, hrp, hst, -, -, -, -⟩ :=
      clone_from_some d now src alloc (some fresh_ckpt) hl
    refine ⟨nt, requeue nt.trial_id src.trial_id rs, ?_, hrp⟩
    simp only [create_from, hlive, if_true, heq]
    rw [if_pos ⟨hrp, hst⟩]

/-- C6 (witness): the checkpoint-choice property instantiated at a paused
concrete source trial whose existing checkpoint is `"old"`, the
hypotheses discharged by evaluation. -/
theorem C6_create_from_witness :
    ((["x"] : List NodeId) ≠ []) ∧
    ((SrcTrial.base "t0" "c" "e" false (some "old")).runner_live = false) ∧
    (∃ nt rs2, create_from "CPU" 0 "fresh"
        (.base "t0" "c" "e" false (some "old")) ⟨["t0"], ["t0"]⟩ ["x"] true =
        some (nt, rs2, false) ∧
      nt.restore_path =
        (SrcTrial.base "t0" "c" "e" false (some "old")).restore_path) :=
  ⟨by decide, rfl,
    (C6_create_from_checkpoint_choice "CPU" 0 "fresh"
      (.base "t0" "c" "e" false (some "old")) ⟨["t0"], ["t0"]⟩ ["x"]
      (by decide)).1 rfl⟩

/-- C7: when `_fetch_metrics` yields nothing, the `JobInfo` built by
`job_info` carries the identity speedup function; when metrics are present
it carries the goodput-derived speedup function built from them. -/
theorem C7_speedup_fallback (res : Bundle) (mn mx ts : Nat) :
    (job_info res mn mx none ts).speedup_fn = SpeedupFn.identity ∧
    ∀ m : Metrics, (job_info res mn mx (some m) ts).speedup_fn =
      SpeedupFn.model ⟨m.perf_params, m.grad_params, 128⟩ 1280 64 256 :=
  ⟨rfl, fun _ => rfl⟩


/-- C8: for every non-empty allocation the encoding's first bundle is the
minimal control-plane reservation — a fractional CPU strictly between 0
and 1, with no node-bound key — and every subsequent bundle pins the
per-node count of the primary device to exactly one node of the
allocation, reserving an equal CPU quantity when the device is the GPU. -/
theorem C8_bundle_structure (d : Key) (l : List NodeId) (pgf : List Bundle)
    (hd : d = "CPU" ∨ d = "GPU") (hl : l ≠ [])
    (he : allocation_to_pgf d l = some pgf) :
    pgf.head? = some [("CPU", centi)] ∧
    (0 : ℚ) < centi ∧ centi < 1 ∧
    (∀ kv ∈ [(("CPU" : Key), centi)], pyStartsWith kv.1 "node" = false) ∧
    (∀ b ∈ pgf.tail, ∃ n, n ∈ l ∧
      (d, ((l.count n : ℕ) : ℚ)) ∈ b ∧
      ("node:" ++ n, centi) ∈ b ∧
      (∀ kv ∈ b, pyStartsWith kv.1 "node" = true → kv.1 = "node:" ++ n) ∧
      (d = "GPU" → (("CPU" : Key), ((l.count n : ℕ) : ℚ)) ∈ b)) := by
  rw [encode_eq d l hl] at he
  injection he with he
  subst he
  refine ⟨rfl, by decide, by decide, by decide, ?_⟩
  intro b hb
  simp only [List.tail_cons] at hb
  rcases List.mem_map.mp hb with ⟨p, hp, rfl⟩
  rcases List.mem_map.mp hp with ⟨n, hn, rfl⟩
  refine ⟨n, (mem_firstOccs n l).mp hn, ?_, ?_, ?_, ?_⟩
  · simp [construct_bundle]
  · simp [construct_bundle]
  · intro kv hkv hstart
    rcases hd with hdd | hdd <;> subst hdd <;>
      simp only [construct_bundle, List.mem_append, List.mem_cons,
        List.not_mem_nil, or_false] at hkv
    · rcases hkv with hkv | hkv
      · rcases hkv with rfl | hkv
        · rw [pyStartsWith_CPU] at hstart
          exact absurd hstart (by decide)
        · rcases hkv with rfl
          rfl
      · simp at hkv
    · rcases hkv with hkv | hkv
      · rcases hkv with rfl | hkv
        · rw [pyStartsWith_GPU] at hstart
          exact absurd hstart (by decide)
        · rcases hkv with rfl
          rfl
      · simp at hkv
        rcases hkv with rfl
        rw [pyStartsWith_CPU] at hstart
        exact absurd hstart (by decide)
  · intro hdd
    subst hdd
    simp [construct_bundle]


/-- C8 (witness): the bundle-structure property instantiated at the
allocation `["a"]` with device `"CPU"`, the hypotheses discharged by
evaluation. -/
theorem C8_bundle_witness :
    (("CPU" : Key) = "CPU" ∨ ("CPU" : Key) = "GPU") ∧
    (["a"] : List NodeId) ≠ [] ∧
    allocation_to_pgf "CPU" ["a"] =
      some [[("CPU", centi)], [("CPU", ((1 : ℕ) : ℚ)), ("node:a", centi)]] ∧
    ([[(("CPU" : Key), centi)],
      [(("CPU" : Key), ((1 : ℕ) : ℚ)), (("node:a" : Key), centi)]].head? =
        some [(("CPU" : Key), centi)] ∧
      (0 : ℚ) < centi ∧ centi < 1 ∧
      (∀ kv ∈ [(("CPU" : Key), centi)], pyStartsWith kv.1 "node" = false) ∧
      (∀ b ∈ [[(("CPU" : Key), centi)],
          [(("CPU" : Key), ((1 : ℕ) : ℚ)), (("node:a" : Key), centi)]].tail,
        ∃ n, n ∈ (["a"] : List NodeId) ∧
          (("CPU" : Key), (((["a"] : List NodeId).count n : ℕ) : ℚ)) ∈ b ∧
          ("node:" ++ n, centi) ∈ b ∧
          (∀ kv ∈ b, pyStartsWith kv.1 "node" = true →
            kv.1 = "node:" ++ n) ∧
          (("CPU" : Key) = "GPU" →
            (("CPU" : Key), (((["a"] : List NodeId).count n : ℕ) : ℚ)) ∈ b))) :=
  ⟨Or.inl rfl, by decide, by decide,
    C8_bundle_structure "CPU" ["a"]
      [[("CPU", centi)], [("CPU", ((1 : ℕ) : ℚ)), ("node:a", centi)]]
      (Or.inl rfl) (by decide) (by decide)⟩

/-- C9: the encoder rejects the empty allocation (its assertion fails,
modelled as `none`), and for every non-empty allocation the encoding
succeeds with a strictly positive replica count, so both the encoder's
assertion and `_clone_from`'s `num_workers > 0` assertion pass. -/
theorem C9_codec_rejects_empty (d : Key) (alloc : List NodeId)
    (hd : d = "CPU" ∨ d = "GPU") (hl : alloc ≠ []) :
    allocation_to_pgf d ([] : List NodeId) = none ∧
    ∃ pgf, allocation_to_pgf d alloc = some pgf ∧
      0 < pgf_to_num_replicas d pgf := by
  refine ⟨rfl, ⟨_, encode_eq d alloc hl, ?_⟩⟩
  rw [num_replicas_encode d alloc hl _ (encode_eq d alloc hl)]
  exact_mod_cast List.length_pos.mpr hl

/-- C9 (witness): the empty-rejection and positivity property instantiated
at device `"CPU"` and allocation `["x"]`, the hypotheses discharged by
evaluation. -/
theorem C9_codec_witness :
    (("CPU" : Key) = "CPU" ∨ ("CPU" : Key) = "GPU") ∧
    (["x"] : List NodeId) ≠ [] ∧
    (allocation_to_pgf "CPU" ([] : List NodeId) = none ∧
      ∃ pgf, allocation_to_pgf "CPU" ["x"] = some pgf ∧
        0 < pgf_to_num_replicas "CPU" pgf) :=
  ⟨Or.inl rfl, by decide,
    C9_codec_rejects_empty "CPU" ["x"] (Or.inl rfl) (by decide)⟩

/-- C10: the replica count read back from an encoded allocation equals the
allocation's length, and every successful clone onto that allocation spawns
exactly that many workers. -/
theorem C10_num_replicas_roundtrip (d : Key) (alloc : List NodeId)
    (pgf : List Bundle) (hd : d = "CPU" ∨ d = "GPU") (hl : alloc ≠ [])
    (he : allocation_to_pgf d alloc = some pgf) :
    pgf_to_num_replicas d pgf = (alloc.length : ℤ) ∧
    (∀ now src rp nt, clone_from d now src alloc rp = some nt →
      nt.num_workers = (alloc.length : ℤ)) := by
  refine ⟨num_replicas_encode d alloc hl pgf he, ?_⟩
  intro now src rp nt hcl
  obtain ⟨nt2, heq, -, -, -, hnw, -, -⟩ := clone_from_some d now src alloc rp hl
  rw [heq] at hcl
  injection hcl with hcl
  exact hcl ▸ hnw

/-- C10 (witness): the replica-count property instantiated at device
`"CPU"` and allocation `["x", "y"]`, the hypotheses discharged by
evaluation. -/
theorem C10_num_replicas_witness :
    (("CPU" : Key) = "CPU" ∨ ("CPU" : Key) = "GPU") ∧
    (["x", "y"] : List NodeId) ≠ [] ∧
    allocation_to_pgf "CPU" ["x", "y"] =
      some [[("CPU", centi)],
            [("CPU", ((1 : ℕ) : ℚ)), ("node:x", centi)],
            [("CPU", ((1 : ℕ) : ℚ)), ("node:y", centi)]] ∧
    (pgf_to_num_replicas "CPU"
        [[("CPU", centi)],
         [("CPU", ((1 : ℕ) : ℚ)), ("node:x", centi)],
         [("CPU", ((1 : ℕ) : ℚ)), ("node:y", centi)]] =
        ((["x", "y"] : List NodeId).length : ℤ) ∧
      (∀ now src rp nt,
        clone_from "CPU" now src ["x", "y"] rp = some nt →
          nt.num_workers = ((["x", "y"] : List NodeId).length : ℤ))) :=
  ⟨Or.inl rfl, by decide, by decide,
    C10_num_replicas_roundtrip "CPU" ["x", "y"]
      [[("CPU", centi)],
       [("CPU", ((1 : ℕ) : ℚ)), ("node:x", centi)],
       [("CPU", ((1 : ℕ) : ℚ)), ("node:y", centi)]]
      (Or.inl rfl) (by decide) (by decide)⟩

end AdaptDL
